import Mathlib

/-!
Shallow embedding of the Store2Hydro scenario-pipeline scripts
(`pypsa_utilities.py`, `Naime-1stBlock.py`, `ChatGPT-TryOne.py`) and proofs
about the claims of the specification.

Numeric values are modelled by exact rationals.  Where the scripts rely on
IEEE-754 special values (the pandas division `target / current` in
`rescale_loads` produces `inf` on division of a nonzero value by zero and
`NaN` on `0/0`, and `dropna` removes only `NaN`), values are modelled by the
extended type `PFloat` below, which adds `inf`, `-inf` and `NaN` on top of
the rationals with the exact IEEE-754 propagation rules for the operations
the scripts use.  Decimal literals of the source are read as exact rationals.
-/

/-- Extended numeric values: finite rationals plus the IEEE-754 special
values `+inf`, `-inf` and `NaN` that pandas arithmetic can produce. -/
inductive PFloat : Type where
  | val : ℚ → PFloat
  | inf : PFloat
  | ninf : PFloat
  | nan : PFloat
deriving DecidableEq, Repr

/-- A `PFloat` is finite when it carries a rational value. -/
def PFloat.isFinite : PFloat → Bool
  | .val _ => true
  | _ => false

/-- The rational carried by a finite `PFloat` (junk value 0 otherwise). -/
def PFloat.toRat : PFloat → ℚ
  | .val q => q
  | _ => 0

/-- IEEE-754 addition on extended values (zeros are unsigned; the scripts
never produce `-0.0` in the summations modelled here). -/
def padd : PFloat → PFloat → PFloat
  | .nan, _ => .nan
  | _, .nan => .nan
  | .val a, .val b => .val (a + b)
  | .val _, .inf => .inf
  | .inf, .val _ => .inf
  | .inf, .inf => .inf
  | .val _, .ninf => .ninf
  | .ninf, .val _ => .ninf
  | .ninf, .ninf => .ninf
  | .inf, .ninf => .nan
  | .ninf, .inf => .nan

/-- IEEE-754 multiplication on extended values. -/
def pmul : PFloat → PFloat → PFloat
  | .nan, _ => .nan
  | _, .nan => .nan
  | .val a, .val b => .val (a * b)
  | .val a, .inf => if 0 < a then .inf else if a < 0 then .ninf else .nan
  | .inf, .val a => if 0 < a then .inf else if a < 0 then .ninf else .nan
  | .val a, .ninf => if 0 < a then .ninf else if a < 0 then .inf else .nan
  | .ninf, .val a => if 0 < a then .ninf else if a < 0 then .inf else .nan
  | .inf, .inf => .inf
  | .inf, .ninf => .ninf
  | .ninf, .inf => .ninf
  | .ninf, .ninf => .inf

/-- IEEE-754 division on extended values: a nonzero finite value divided by
(positive) zero gives a signed infinity, `0/0` gives `NaN`. -/
def pdiv : PFloat → PFloat → PFloat
  | .nan, _ => .nan
  | _, .nan => .nan
  | .val a, .val b =>
      if b = 0 then (if 0 < a then .inf else if a < 0 then .ninf else .nan)
      else .val (a / b)
  | .val _, .inf => .val 0
  | .val _, .ninf => .val 0
  | .inf, .val b => if b < 0 then .ninf else .inf
  | .ninf, .val b => if b < 0 then .inf else .ninf
  | .inf, .inf => .nan
  | .inf, .ninf => .nan
  | .ninf, .inf => .nan
  | .ninf, .ninf => .nan

/-- Sum of a list of extended values, starting from `0` as pandas `sum`
does on the (all-finite) series the scripts feed it. -/
def psum (xs : List PFloat) : PFloat :=
  xs.foldl padd (.val 0)

/-! ## Data model of the pypsa_utilities / Naime-1stBlock network

One structure per component table, with the attributes the scripts read or
write.  Attributes the scripts leave at the library default are constructed
with that default (noted where it matters). -/

/-- A load: a row of `n.loads` together with its `n.loads_t.p_set` column. -/
structure Load : Type where
  name : String
  bus : String
  p_set : List PFloat
deriving DecidableEq, Repr

/-- A storage unit row, with the attributes used by `add_battery_storage`
and `convert_hydro_to_phs`. -/
structure StorageUnit : Type where
  name : String
  bus : String
  carrier : String
  p_nom_extendable : Bool
  max_hours : ℚ
  efficiency_store : ℚ
  efficiency_dispatch : ℚ
  capital_cost : ℚ
  cyclic_state_of_charge : Bool
  p_min_pu : ℚ
deriving DecidableEq, Repr

/-- A link row, with the attributes relevant to `expand_transmission_capacity`. -/
structure Link : Type where
  name : String
  bus0 : String
  bus1 : String
  p_nom : ℚ
  efficiency : ℚ
  capital_cost : ℚ
  p_nom_extendable : Bool
deriving DecidableEq, Repr

/-- A global constraint row, as created by `add_co2_limit`. -/
structure GlobalConstraint : Type where
  name : String
  carrier_attribute : String
  sense : String
  constant : ℚ
deriving DecidableEq, Repr

/-- The network tables touched by the pypsa_utilities pipeline steps. -/
structure Network : Type where
  buses : List String
  loads : List Load
  storage_units : List StorageUnit
  links : List Link
  global_constraints : List GlobalConstraint
deriving DecidableEq, Repr

/-! ## annuity -/

/-- `annuity(n, r)` from `pypsa_utilities.py`:
`r / (1.0 - (1.0 + r) ** -n)` when `r > 0`, else `1.0 / n`. -/
def annuity (n : ℕ) (r : ℚ) : ℚ :=
  if 0 < r then r / (1 - (1 + r) ^ (-(n : ℤ))) else 1 / (n : ℚ)

/-! ## add_battery_storage -/

/-- The capital cost computed once in `add_battery_storage`:
`annuity(16, 0.05) * 81e3 * (1 + 0.021) + max_hours * annuity(16, 0.05) * 236e3`
with `max_hours = 8`. -/
def battery_capital_cost : ℚ :=
  annuity 16 (5/100) * 81000 * (1 + 21/1000) + 8 * annuity 16 (5/100) * 236000

/-- The storage unit added for one bus by `add_battery_storage`
(`p_min_pu` is left at the library default `0`). -/
def battery_unit (bus : String) : StorageUnit :=
  { name := bus ++ " battery"
    bus := bus
    carrier := "batteries"
    p_nom_extendable := true
    max_hours := 8
    efficiency_store := 92/100
    efficiency_dispatch := 92/100
    capital_cost := battery_capital_cost
    cyclic_state_of_charge := true
    p_min_pu := 0 }

/-- `add_battery_storage(network)`: one extendable battery storage unit is
added per bus, named `f"{bus} battery"`. -/
def add_battery_storage (n : Network) : Network :=
  { n with storage_units := n.storage_units ++ n.buses.map battery_unit }

/-! ## add_co2_limit -/

/-- The hard-coded baseline emissions `1012028560.7495946`. -/
def base_co2_emissions : ℚ := 10120285607495946 / 10000000

/-- `add_co2_limit(network, co2_limit)`: adds the single global constraint
`"CO2Limit"` bounding `co2_emissions` with sense `"<="` and constant
`co2_limit * base_co2_emissions`. -/
def add_co2_limit (n : Network) (co2_limit : ℚ) : Network :=
  { n with global_constraints := n.global_constraints ++
      [{ name := "CO2Limit"
         carrier_attribute := "co2_emissions"
         sense := "<="
         constant := co2_limit * base_co2_emissions }] }

/-! ## convert_hydro_to_phs (Variant A) -/

/-- `convert_hydro_to_phs(network)`: for every storage unit with
`carrier == "hydro"`, set `p_min_pu` to `-1` and `efficiency_store` to
`0.9`; no other row or attribute is touched. -/
def convert_hydro_to_phs (n : Network) : Network :=
  { n with storage_units := n.storage_units.map (fun s =>
      if s.carrier == "hydro" then
        { s with p_min_pu := -1, efficiency_store := 9/10 }
      else s) }

/-! ## expand_transmission_capacity -/

/-- `expand_transmission_capacity(network)`: sets
`network.links.loc[:, "p_nom_extendable"] = True` on every link. -/
def expand_transmission_capacity (n : Network) : Network :=
  { n with links := n.links.map (fun l => { l with p_nom_extendable := true }) }

/-! ## rescale_loads -/

/-- The hard-coded `gtoe_electricity` table (values in Gtoe, exact). -/
def gtoe_electricity : List (String × ℚ) :=
  [("AT0 0", 11975/1000), ("BE0 0", 15118/1000), ("BG0 0", 5364/1000),
   ("CZ0 0", 12211/1000), ("DE0 0", 89121/1000),
   ("DK0 0", (57/100) * (5929/1000)), ("DK6 0", (43/100) * (5929/1000)),
   ("EE5 0", 1516/1000),
   ("ES0 0", (98/100) * (398473/10000)), ("ES3 0", (2/100) * (398473/10000)),
   ("FI6 0", 8476/1000), ("FR0 0", 70668/1000),
   ("GB4 0", (98/100) * (51032/1000)), ("GB2 0", (2/100) * (51032/1000)),
   ("GR0 0", 8002/1000), ("HR0 0", 3054/1000), ("HU0 0", 8583/1000),
   ("IE2 0", 4972/1000),
   ("IT0 0", (96/100) * (49571/1000)), ("IT1 0", (4/100) * (49571/1000)),
   ("LT5 0", 1512/1000), ("LU0 0", 1180/1000), ("LV5 0", 2320/1000),
   ("NL0 0", 19456/1000), ("PL0 0", 35345/1000), ("PT0 0", 7941/1000),
   ("RO0 0", 11551/1000), ("SE6 0", 14514/1000), ("SI0 0", 2510/1000),
   ("SK0 0", 4362/1000)]

/-- Conversion factor from Gtoe to TWh, `11.630`. -/
def gtoe_to_twh : ℚ := 11630/1000

/-- `target_twh`: the target consumption in TWh for a country code, when the
country appears in `gtoe_electricity` (`pd.Series(gtoe_electricity) * gtoe_to_twh`). -/
def target_twh (c : String) : Option ℚ :=
  (gtoe_electricity.lookup c).map (fun g => g * gtoe_to_twh)

/-- The characters after the last `'_'` of a string (the whole string when
no underscore occurs), accumulated in reverse. -/
def lastTokenAux : List Char → List Char → List Char
  | [], acc => acc.reverse
  | c :: cs, acc =>
      if c = '_' then lastTokenAux cs [] else lastTokenAux cs (c :: acc)

/-- `load_country[load]`: the trailing token of the load's bus identifier
after splitting on an underscore (`x.split('_')[-1]`, realized as a
structural scan so that it evaluates by reduction). -/
def loadCountry (l : Load) : String :=
  ⟨lastTokenAux l.bus.data []⟩

/-- The aggregated current load of a country in MWh:
`n.loads_t.p_set.sum().groupby(load_country).sum()` at that country. -/
def country_sum_mwh (loads : List Load) (c : String) : PFloat :=
  psum ((loads.filter (fun l => loadCountry l == c)).map (fun l => psum l.p_set))

/-- The aggregated current load of a country converted to TWh (`/ 1e6`). -/
def load_sums_twh (loads : List Load) (c : String) : PFloat :=
  pdiv (country_sum_mwh loads c) (.val 1000000)

/-- Whether some load of the model belongs to the country (the country then
has an entry in `load_sums_by_country`). -/
def countryPresent (loads : List Load) (c : String) : Bool :=
  loads.any (fun l => loadCountry l == c)

/-- The per-country scaling factor after
`scaling_factors = (target_twh / load_sums_by_country).dropna()`:
pandas aligns the two indexes (a country missing on either side yields `NaN`)
and `dropna` removes exactly the `NaN` entries — a `0/0` result is dropped,
an `inf` from `t/0` with `t ≠ 0` is kept. -/
def scalingFactor (loads : List Load) (c : String) : Option PFloat :=
  match target_twh c with
  | none => none
  | some t =>
      if countryPresent loads c then
        let f := pdiv (.val t) (load_sums_twh loads c)
        if f = .nan then none else some f
      else none

/-- The body of the rescaling loop for one load: when the load's country
has a surviving scaling factor, multiply its whole `p_set` series by it;
otherwise leave the load untouched. -/
def rescaleLoad (loads : List Load) (l : Load) : Load :=
  match scalingFactor loads (loadCountry l) with
  | some f => { l with p_set := l.p_set.map (fun x => pmul x f) }
  | none => l

/-- `rescale_loads(n)`: the loop over `n.loads.index`.  (The factors are
computed from the pre-loop sums, which the in-place loop of the source also
does.) -/
def rescale_loads (n : Network) : Network :=
  { n with loads := n.loads.map (rescaleLoad n.loads) }

/-! ## Data model of ChatGPT-TryOne.py (Variant B retrofit) -/

/-- A generator row of that script's network, with the attributes read by
the retrofit and the attributes set by the turbine `n.add("Generator", ...)`
call (the library defaults are `carrier = ""`, `marginal_cost = 0`,
`efficiency = 1`, `p_nom_extendable = False`, `capital_cost = 0`). -/
structure RGenerator : Type where
  name : String
  bus : String
  p_nom : ℚ
  carrier : String
  marginal_cost : ℚ
  efficiency : ℚ
  p_nom_extendable : Bool
  capital_cost : ℚ
deriving DecidableEq, Repr

/-- A storage unit row as created by the reservoir `n.add("StorageUnit", ...)`
call (`p_nom=None` is modelled by `Option`). -/
structure RStorageUnit : Type where
  name : String
  bus : String
  p_nom : Option ℚ
  e_nom : ℚ
  efficiency_store : ℚ
  standing_loss : ℚ
  capital_cost : ℚ
deriving DecidableEq, Repr

/-- A link row as created by the pump `n.add("Link", ...)` call. -/
structure RLink : Type where
  name : String
  bus0 : String
  bus1 : String
  p_nom : ℚ
  efficiency : ℚ
  capital_cost : ℚ
deriving DecidableEq, Repr

/-- The time-series tables `n.generators_t`: a column group is either absent
from `n.generators_t.columns` or a table of per-generator series. -/
structure GenTS : Type where
  p_max_pu : Option (List (String × List ℚ))
  p : Option (List (String × List ℚ))
deriving DecidableEq, Repr

/-- The network of `ChatGPT-TryOne.py`. -/
structure RNetwork : Type where
  buses : List String
  generators : List RGenerator
  storage_units : List RStorageUnit
  links : List RLink
  generators_t : GenTS
  snapshots : List String
deriving DecidableEq, Repr

/-- `EFF_TURBINE = 0.9`. -/
def EFF_TURBINE : ℚ := 9/10

/-- `EFF_PUMP = 0.85`. -/
def EFF_PUMP : ℚ := 17/20

/-- `RESERVOIR_HOURS = 24*7`. -/
def RESERVOIR_HOURS : ℚ := 24 * 7

/-- `CAPEX_PHS_PER_MW = 1e6`. -/
def CAPEX_PHS_PER_MW : ℚ := 1000000

/-- `CAPEX_RES_PER_MWH = 200e3`. -/
def CAPEX_RES_PER_MWH : ℚ := 200000

/-- `identify_hydro_generators(n)`: the generators with `carrier == 'hydro'`
(in this typed embedding the carrier column is always present, so the
missing-column branch returning an empty frame does not arise). -/
def identify_hydro_generators (n : RNetwork) : List RGenerator :=
  n.generators.filter (fun g => g.carrier == "hydro")

/-- `compute_inflow_timeseries(gen, n)`: prefer the `p_max_pu` column scaled
by `p_nom`, then the dispatch column `p`, falling back to an all-zero series
over the snapshots.  Its result is bound but never used by the retrofit. -/
def compute_inflow_timeseries (gen : RGenerator) (n : RNetwork) : List ℚ :=
  match n.generators_t.p_max_pu with
  | some tbl => ((tbl.lookup gen.name).getD []).map (fun x => x * gen.p_nom)
  | none =>
      match n.generators_t.p with
      | some tbl => (tbl.lookup gen.name).getD []
      | none => n.snapshots.map (fun _ => 0)

/-- The reservoir storage unit synthesized for one hydro generator. -/
def phs_store (g : RGenerator) : RStorageUnit :=
  { name := "PHS_" ++ g.name ++ "_store"
    bus := g.bus
    p_nom := none
    e_nom := g.p_nom * RESERVOIR_HOURS
    efficiency_store := 1
    standing_loss := 0
    capital_cost := CAPEX_RES_PER_MWH * (g.p_nom * RESERVOIR_HOURS) }

/-- The turbine generator synthesized for one hydro generator (attributes
not named in the `n.add` call take the library defaults). -/
def phs_turb (g : RGenerator) : RGenerator :=
  { name := "PHS_" ++ g.name ++ "_turb"
    bus := g.bus
    p_nom := g.p_nom
    carrier := ""
    marginal_cost := 0
    efficiency := EFF_TURBINE
    p_nom_extendable := false
    capital_cost := CAPEX_PHS_PER_MW * g.p_nom }

/-- The pump link synthesized for one hydro generator (`bus0 = bus1 = bus`,
as in the source). -/
def phs_pump_link (g : RGenerator) : RLink :=
  { name := "PHS_" ++ g.name ++ "_pump_link"
    bus0 := g.bus
    bus1 := g.bus
    p_nom := g.p_nom
    efficiency := EFF_PUMP
    capital_cost := CAPEX_PHS_PER_MW * g.p_nom }

/-- One entry of the `created` result list. -/
structure Created : Type where
  gen_id : String
  bus : String
  p_nom : ℚ
  storage : String
  turbine : String
  pump_link : String
deriving DecidableEq, Repr

/-- The `created` entry appended for one hydro generator. -/
def created_entry (g : RGenerator) : Created :=
  { gen_id := g.name
    bus := g.bus
    p_nom := g.p_nom
    storage := "PHS_" ++ g.name ++ "_store"
    turbine := "PHS_" ++ g.name ++ "_turb"
    pump_link := "PHS_" ++ g.name ++ "_pump_link" }

/-- The mutable state of the retrofit loop: the network being edited, the
`created` list, and the printed diagnostics. -/
structure RState : Type where
  net : RNetwork
  created : List Created
  msgs : List String
deriving DecidableEq, Repr

/-- One iteration of the retrofit loop over the copied hydro frame: skip
(with a diagnostic) when `p_nom <= 0`; otherwise compute the (unused) inflow
series, add the reservoir, the turbine and the pump link, record the created
entry, and, when `remove_old`, drop every generator row labelled `gid`. -/
def rstep (remove_old : Bool) (s : RState) (g : RGenerator) : RState :=
  if g.p_nom ≤ 0 then
    { s with msgs := s.msgs ++
        ["Generator " ++ g.name ++ " hat p_nom<=0, übersprungen."] }
  else
    let _inflow_ts := compute_inflow_timeseries g s.net
    let gens := s.net.generators ++ [phs_turb g]
    let gens2 := if remove_old then gens.filter (fun g2 => g2.name != g.name)
                 else gens
    { net := { s.net with
        generators := gens2
        storage_units := s.net.storage_units ++ [phs_store g]
        links := s.net.links ++ [phs_pump_link g] }
      created := s.created ++ [created_entry g]
      msgs := s.msgs }

/-- `retrofit_hydro_to_phs(n, remove_old)` (the unused `marker_tag`
parameter is omitted): returns the mutated network, the `created` list
(`none` for the early return on an empty hydro frame, which prints only the
"Keine Hydro-Generatoren gefunden" diagnostic), and the printed messages. -/
def retrofit_hydro_to_phs (n : RNetwork) (remove_old : Bool) :
    RNetwork × Option (List Created) × List String :=
  let hydro := identify_hydro_generators n
  if hydro.isEmpty then
    (n, none, ["Keine Hydro-Generatoren gefunden (Filter anpassen)."])
  else
    let s := hydro.foldl (rstep remove_old) ⟨n, [], []⟩
    (s.net, some s.created,
      s.msgs ++ ["PHS für " ++ toString s.created.length ++ " Standorte erzeugt."])

/-! ## Helper lemmas -/

/-- A mapped list is pointwise related to its source. -/
theorem forall2_map_self {α β : Type} (f : α → β) (R : α → β → Prop)
    (l : List α) (h : ∀ x ∈ l, R x (f x)) : List.Forall₂ R l (l.map f) := by
  induction l with
  | nil => exact List.Forall₂.nil
  | cons a t ih =>
      exact List.Forall₂.cons (h a (by simp))
        (ih (fun x hx => h x (by simp [hx])))

/-! ## Claim theorems -/

/-- C4: `annuity` returns `r / (1 − (1+r)^(−n))` when `r > 0` and `1/n`
otherwise; hence `annuity(n, 0) = 1/n` for every positive `n`, and for every
`r > 0` (with a positive lifetime `n`),
`annuity(n, r) * (1 − (1+r)^(−n)) = r` — exactly, in the exact-rational
model, hence within floating-point tolerance. -/
theorem annuity_correct (n : ℕ) (r : ℚ) :
    (0 < n → annuity n 0 = 1 / (n : ℚ)) ∧
    (0 < n → 0 < r → annuity n r * (1 - (1 + r) ^ (-(n : ℤ))) = r) := by
  constructor
  · intro _
    simp [annuity]
  · intro hn hr
    have h1 : (1 : ℚ) < 1 + r := by linarith
    have hpow : (1 : ℚ) < (1 + r) ^ n := one_lt_pow₀ h1 (Nat.pos_iff_ne_zero.mp hn)
    have h2 : (1 + r) ^ (-(n : ℤ)) = ((1 + r) ^ n)⁻¹ := by
      rw [zpow_neg, zpow_natCast]
    have hlt : ((1 + r) ^ n)⁻¹ < 1 := inv_lt_one_of_one_lt₀ hpow
    have hne : 1 - (1 + r) ^ (-(n : ℤ)) ≠ 0 := by
      rw [h2]
      linarith
    rw [annuity, if_pos hr, div_mul_cancel₀ _ hne]

/-- C4 witness: the two properties evaluated at `n = 16` and `r = 0.05`. -/
theorem annuity_correct_witness :
    annuity 16 0 = 1 / ((16 : ℕ) : ℚ) ∧
    annuity 16 (5/100) * (1 - (1 + 5/100) ^ (-((16 : ℕ) : ℤ))) = 5/100 :=
  ⟨(annuity_correct 16 0).1 (by decide),
   (annuity_correct 16 (5/100)).2 (by decide) (by norm_num)⟩

/-- C9: `add_co2_limit` appends exactly one global constraint named
`"CO2Limit"` over the carrier attribute `"co2_emissions"` with sense `"<="`
and constant `fraction * 1012028560.7495946`, touching no other table; a
fraction of `0` yields the bound `0` and a fraction of `1` yields the
baseline. -/
theorem add_co2_limit_correct (n : Network) (f : ℚ) :
    (add_co2_limit n f).global_constraints = n.global_constraints ++
      [{ name := "CO2Limit", carrier_attribute := "co2_emissions",
         sense := "<=", constant := f * base_co2_emissions }] ∧
    (add_co2_limit n f).buses = n.buses ∧
    (add_co2_limit n f).loads = n.loads ∧
    (add_co2_limit n f).storage_units = n.storage_units ∧
    (add_co2_limit n f).links = n.links ∧
    (add_co2_limit n 0).global_constraints = n.global_constraints ++
      [{ name := "CO2Limit", carrier_attribute := "co2_emissions",
         sense := "<=", constant := 0 }] ∧
    (add_co2_limit n 1).global_constraints = n.global_constraints ++
      [{ name := "CO2Limit", carrier_attribute := "co2_emissions",
         sense := "<=", constant := base_co2_emissions }] := by
  refine ⟨rfl, rfl, rfl, rfl, rfl, ?_, ?_⟩ <;> simp [add_co2_limit]

/-- C7: after `expand_transmission_capacity`, every link has
`p_nom_extendable = true` and every other link attribute is unchanged; no
link is added or removed (the lists are pointwise related) and no other
table is touched. -/
theorem expand_transmission_capacity_correct (n : Network) :
    List.Forall₂ (fun l l2 =>
        l2.p_nom_extendable = true ∧ l2.name = l.name ∧ l2.bus0 = l.bus0 ∧
        l2.bus1 = l.bus1 ∧ l2.p_nom = l.p_nom ∧
        l2.efficiency = l.efficiency ∧ l2.capital_cost = l.capital_cost)
      n.links (expand_transmission_capacity n).links ∧
    (expand_transmission_capacity n).links.length = n.links.length ∧
    (expand_transmission_capacity n).buses = n.buses ∧
    (expand_transmission_capacity n).loads = n.loads ∧
    (expand_transmission_capacity n).storage_units = n.storage_units ∧
    (expand_transmission_capacity n).global_constraints = n.global_constraints := by
  refine ⟨?_, ?_, rfl, rfl, rfl, rfl⟩
  · exact forall2_map_self _ _ _ (fun l _ => ⟨rfl, rfl, rfl, rfl, rfl, rfl, rfl⟩)
  · simp [expand_transmission_capacity]

/-- C5: after `convert_hydro_to_phs`, every storage unit whose carrier is
exactly `"hydro"` has `p_min_pu = −1` and `efficiency_store = 0.9`, every
storage unit whose carrier is not `"hydro"` is unchanged in every attribute,
and no component of any table is added or removed. -/
theorem convert_hydro_to_phs_correct (n : Network) :
    (∀ s ∈ (convert_hydro_to_phs n).storage_units, s.carrier = "hydro" →
        s.p_min_pu = -1 ∧ s.efficiency_store = 9/10) ∧
    List.Forall₂ (fun s s2 =>
        (s.carrier = "hydro" →
          s2 = { s with p_min_pu := -1, efficiency_store := 9/10 }) ∧
        (s.carrier ≠ "hydro" → s2 = s))
      n.storage_units (convert_hydro_to_phs n).storage_units ∧
    (convert_hydro_to_phs n).storage_units.length = n.storage_units.length ∧
    (convert_hydro_to_phs n).buses = n.buses ∧
    (convert_hydro_to_phs n).loads = n.loads ∧
    (convert_hydro_to_phs n).links = n.links ∧
    (convert_hydro_to_phs n).global_constraints = n.global_constraints := by
  refine ⟨?_, ?_, ?_, rfl, rfl, rfl, rfl⟩
  · intro s hs hcar
    simp only [convert_hydro_to_phs, List.mem_map] at hs
    obtain ⟨s0, _, hmap⟩ := hs
    by_cases h0 : s0.carrier = "hydro"
    · rw [if_pos (by simpa using h0)] at hmap
      subst hmap
      exact ⟨rfl, rfl⟩
    · rw [if_neg (by simpa using h0)] at hmap
      subst hmap
      exact absurd hcar h0
  · refine forall2_map_self _ _ _ (fun s _ => ⟨fun h => ?_, fun h => ?_⟩)
    · rw [if_pos (by simpa using h)]
    · rw [if_neg (by simpa using h)]
  · simp [convert_hydro_to_phs]

/-- Concrete one-storage-unit network for evaluating Variant A. -/
def suHydroC5 : StorageUnit :=
  { name := "h1", bus := "B1", carrier := "hydro", p_nom_extendable := false,
    max_hours := 6, efficiency_store := 87/100, efficiency_dispatch := 1,
    capital_cost := 5, cyclic_state_of_charge := false, p_min_pu := 0 }

/-- Concrete network for evaluating Variant A. -/
def nC5 : Network :=
  { buses := ["B1"], loads := [], storage_units := [suHydroC5], links := [],
    global_constraints := [] }

/-- C5 witness: the hydro unit of the concrete network has, after
conversion, `p_min_pu = −1` and `efficiency_store = 0.9`. -/
theorem convert_hydro_to_phs_correct_witness :
    ({ suHydroC5 with p_min_pu := -1, efficiency_store := 9/10 }).p_min_pu = -1 ∧
    ({ suHydroC5 with p_min_pu := -1, efficiency_store := 9/10 }).efficiency_store = 9/10 :=
  (convert_hydro_to_phs_correct nC5).1
    { suHydroC5 with p_min_pu := -1, efficiency_store := 9/10 }
    (by simp [convert_hydro_to_phs, nC5, suHydroC5]) (by rfl)

/-- Appending the fixed battery suffix to distinct bus names yields
distinct storage-unit names. -/
theorem battery_name_inj {x b : String}
    (h : x ++ " battery" = b ++ " battery") : x = b := by
  have hd : x.data ++ (" battery").data = b.data ++ (" battery").data := by
    have h2 := congrArg String.data h
    simpa [String.data_append] using h2
  exact String.ext (List.append_cancel_right hd)

/-- Among the storage units created by `add_battery_storage` over a
duplicate-free bus list, exactly one bears the name derived from a given
bus. -/
theorem battery_count_one (l : List String) (b : String) (hnd : l.Nodup)
    (hb : b ∈ l) :
    ((l.map battery_unit).filter
      (fun s => s.name == b ++ " battery")).length = 1 := by
  induction l with
  | nil => cases hb
  | cons a t ih =>
      obtain ⟨ha, ht⟩ := List.nodup_cons.mp hnd
      by_cases hab : a = b
      · subst hab
        have hhead : ((battery_unit a).name == a ++ " battery") = true := by
          simp [battery_unit]
        have htail : ((t.map battery_unit).filter
            (fun s => s.name == a ++ " battery")) = [] := by
          rw [List.filter_eq_nil_iff]
          intro s hs
          obtain ⟨x, hx, rfl⟩ := List.mem_map.mp hs
          simp only [battery_unit, beq_iff_eq]
          intro heq
          exact ha (battery_name_inj heq ▸ hx)
        simp [List.map_cons, List.filter_cons, hhead, htail]
      · have hhead : ((battery_unit a).name == b ++ " battery") = false := by
          simp only [battery_unit, beq_eq_false_iff_ne, ne_eq]
          intro heq
          exact hab (battery_name_inj heq)
        have hb2 : b ∈ t := by
          cases List.mem_cons.mp hb with
          | inl h => exact absurd h.symm hab
          | inr h => exact h
        simp only [List.map_cons, List.filter_cons, hhead, Bool.false_eq_true,
          if_false]
        exact ih ht hb2

/-- C8: `add_battery_storage` appends, for every bus, exactly one new
storage unit named `bus ++ " battery"` with carrier `"batteries"`,
extendable nominal power, `max_hours = 8`, efficiencies `0.92/0.92`, cyclic
state of charge, and capital cost
`annuity(16, 0.05)·81e3·(1 + 0.021) + 8·annuity(16, 0.05)·236e3`; the
number of newly created `"batteries"` units equals the number of buses, and
no other table is touched. -/
theorem add_battery_storage_correct (n : Network) (hnd : n.buses.Nodup) :
    (add_battery_storage n).storage_units =
      n.storage_units ++ n.buses.map battery_unit ∧
    (∀ b ∈ n.buses,
        ((n.buses.map battery_unit).filter
          (fun s => s.name == b ++ " battery")).length = 1) ∧
    ((n.buses.map battery_unit).filter
        (fun s => s.carrier == "batteries")).length = n.buses.length ∧
    (∀ b ∈ n.buses, battery_unit b =
      { name := b ++ " battery", bus := b, carrier := "batteries",
        p_nom_extendable := true, max_hours := 8,
        efficiency_store := 92/100, efficiency_dispatch := 92/100,
        capital_cost := annuity 16 (5/100) * 81000 * (1 + 21/1000) +
          8 * annuity 16 (5/100) * 236000,
        cyclic_state_of_charge := true, p_min_pu := 0 }) ∧
    (add_battery_storage n).buses = n.buses ∧
    (add_battery_storage n).loads = n.loads ∧
    (add_battery_storage n).links = n.links ∧
    (add_battery_storage n).global_constraints = n.global_constraints := by
  refine ⟨rfl, ?_, ?_, ?_, rfl, rfl, rfl, rfl⟩
  · intro b hb
    exact battery_count_one n.buses b hnd hb
  · have hall : (n.buses.map battery_unit).filter
        (fun s => s.carrier == "batteries") = n.buses.map battery_unit := by
      rw [List.filter_eq_self]
      intro s hs
      obtain ⟨x, _, rfl⟩ := List.mem_map.mp hs
      simp [battery_unit]
    rw [hall, List.length_map]
  · intro b _
    rfl

/-- Concrete two-bus network for evaluating the battery injector. -/
def nC8 : Network :=
  { buses := ["B1", "B2"], loads := [], storage_units := [], links := [],
    global_constraints := [] }

/-- C8 witness: on a concrete two-bus network, exactly one created unit is
named `"B1 battery"`. -/
theorem add_battery_storage_correct_witness :
    ((nC8.buses.map battery_unit).filter
      (fun s => s.name == "B1" ++ " battery")).length = 1 :=
  (add_battery_storage_correct nC8 (by decide)).2.1 "B1" (by decide)

/-! ## Lemmas about the retrofit loop -/

/-- The synthesized turbine name is never the source generator's own name. -/
theorem phs_turb_name_ne (x y : String) : "PHS_" ++ x ++ "_turb" ≠ y ∨ x ≠ y := by
  by_cases hxy : x = y
  · subst hxy
    left
    intro h
    have hl := congrArg String.length h
    have h4 : ("PHS_" : String).length = 4 := rfl
    have h5 : ("_turb" : String).length = 5 := rfl
    rw [String.length_append, String.length_append, h4, h5] at hl
    omega
  · right
    exact hxy

/-- A storage unit present before a loop iteration is still present after it. -/
theorem rstep_storage_mono (b : Bool) (s : RState) (g : RGenerator)
    (x : RStorageUnit) (hx : x ∈ s.net.storage_units) :
    x ∈ (rstep b s g).net.storage_units := by
  by_cases h : g.p_nom ≤ 0 <;> simp [rstep, h, hx]

/-- A storage unit present before the loop is present after it. -/
theorem foldl_storage_mono (b : Bool) (l : List RGenerator) (s : RState)
    (x : RStorageUnit) (hx : x ∈ s.net.storage_units) :
    x ∈ (l.foldl (rstep b) s).net.storage_units := by
  induction l generalizing s with
  | nil => exact hx
  | cons g t ih => exact ih _ (rstep_storage_mono b s g x hx)

/-- A generator row survives a loop iteration provided that, when removal is
on, its name is not the processed generator's label. -/
theorem rstep_gen_pres (b : Bool) (s : RState) (g : RGenerator)
    (x : RGenerator) (hx : x ∈ s.net.generators)
    (hname : b = true → x.name ≠ g.name) :
    x ∈ (rstep b s g).net.generators := by
  by_cases h : g.p_nom ≤ 0
  · simp [rstep, h, hx]
  · cases b with
    | false => simp [rstep, h, hx]
    | true =>
        have hne : x.name ≠ g.name := hname rfl
        simp [rstep, h, List.mem_filter, List.mem_append, hx, hne]

/-- A generator row survives the whole loop provided that, when removal is
on, its name is not the label of any processed generator. -/
theorem foldl_gen_pres (b : Bool) (l : List RGenerator) (s : RState)
    (x : RGenerator) (hx : x ∈ s.net.generators)
    (hname : ∀ g ∈ l, b = true → x.name ≠ g.name) :
    x ∈ (l.foldl (rstep b) s).net.generators := by
  induction l generalizing s with
  | nil => exact hx
  | cons g t ih =>
      exact ih _ (rstep_gen_pres b s g x hx (hname g (by simp)))
        (fun g2 hg2 => hname g2 (by simp [hg2]))

/-- A hydro-carrier generator row that is absent stays absent: iterations
only ever add turbine rows, whose carrier is the default `""`. -/
theorem rstep_gen_absent (b : Bool) (s : RState) (g : RGenerator)
    (x : RGenerator) (hx : x ∉ s.net.generators) (hcar : x.carrier = "hydro") :
    x ∉ (rstep b s g).net.generators := by
  by_cases h : g.p_nom ≤ 0
  · simpa [rstep, h] using hx
  · intro hmem
    have hturb : x ≠ phs_turb g := by
      intro heq
      rw [heq] at hcar
      exact absurd hcar (by simp [phs_turb])
    cases b with
    | false =>
        simp [rstep, h, List.mem_append, List.mem_singleton] at hmem
        tauto
    | true =>
        simp [rstep, h, List.mem_filter, List.mem_append,
          List.mem_singleton] at hmem
        tauto

/-- A hydro-carrier generator row that is absent stays absent over the loop. -/
theorem foldl_gen_absent (b : Bool) (l : List RGenerator) (s : RState)
    (x : RGenerator) (hx : x ∉ s.net.generators) (hcar : x.carrier = "hydro") :
    x ∉ (l.foldl (rstep b) s).net.generators := by
  induction l generalizing s with
  | nil => exact hx
  | cons g t ih => exact ih _ (rstep_gen_absent b s g x hx hcar)

/-- Processing a positive-capacity generator with removal on drops every
generator row bearing its label. -/
theorem rstep_gen_removes (s : RState) (g : RGenerator) (x : RGenerator)
    (hxname : x.name = g.name) (hpos : ¬ g.p_nom ≤ 0) :
    x ∉ (rstep true s g).net.generators := by
  intro hmem
  simp [rstep, hpos, List.mem_filter, List.mem_append,
    List.mem_singleton] at hmem
  tauto

/-- Appending the fixed `"PHS_"`/`"_turb"` affixes never reproduces the
bare generator label. -/
theorem phs_turb_name_ne2 (x : String) : "PHS_" ++ x ++ "_turb" ≠ x := by
  intro h
  have hl := congrArg String.length h
  have h4 : ("PHS_" : String).length = 4 := rfl
  have h5 : ("_turb" : String).length = 5 := rfl
  rw [String.length_append, String.length_append, h4, h5] at hl
  omega

/-- Processing a positive-capacity generator adds its reservoir storage
unit. -/
theorem rstep_store_mem (b : Bool) (s : RState) (g : RGenerator)
    (h : ¬ g.p_nom ≤ 0) : phs_store g ∈ (rstep b s g).net.storage_units := by
  simp [rstep, h]

/-- Processing a positive-capacity generator adds its turbine generator,
which survives the removal filter of its own iteration. -/
theorem rstep_turb_mem (b : Bool) (s : RState) (g : RGenerator)
    (h : ¬ g.p_nom ≤ 0) : phs_turb g ∈ (rstep b s g).net.generators := by
  have hmem : phs_turb g ∈ s.net.generators ++ [phs_turb g] := by simp
  cases b with
  | false => simp [rstep, h]
  | true =>
      have hfil : phs_turb g ∈ (s.net.generators ++ [phs_turb g]).filter
          (fun g2 => g2.name != g.name) := by
        rw [List.mem_filter]
        refine ⟨hmem, ?_⟩
        simp only [phs_turb, bne_iff_ne, ne_eq]
        exact phs_turb_name_ne2 g.name
      simpa [rstep, h] using hfil

/-- C3: for every hydro generator `g` with `p_nom > 0` (whose synthesized
turbine name collides with no existing generator label), Variant B adds a
reservoir storage unit with `e_nom = p_nom · (24·7)` and a turbine
generator with the same nominal power; with `remove_old` the source
generator row is gone from the generator table afterwards, without it the
row is still present unchanged. -/
theorem retrofit_hydro_to_phs_correct (n : RNetwork) (g : RGenerator)
    (b : Bool) (hg : g ∈ n.generators) (hcar : g.carrier = "hydro")
    (hp : 0 < g.p_nom)
    (hnc : ∀ g2 ∈ n.generators, g2.name ≠ "PHS_" ++ g.name ++ "_turb") :
    phs_store g ∈ (retrofit_hydro_to_phs n b).1.storage_units ∧
    (phs_store g).e_nom = g.p_nom * (24 * 7) ∧
    phs_turb g ∈ (retrofit_hydro_to_phs n b).1.generators ∧
    (phs_turb g).p_nom = g.p_nom ∧
    (b = true → g ∉ (retrofit_hydro_to_phs n b).1.generators) ∧
    (b = false → g ∈ (retrofit_hydro_to_phs n b).1.generators) := by
  have hple : ¬ g.p_nom ≤ 0 := not_le.mpr hp
  have hgh : g ∈ identify_hydro_generators n :=
    List.mem_filter.mpr ⟨hg, by simp [hcar]⟩
  have hne : (identify_hydro_generators n).isEmpty = false := by
    simp [List.isEmpty_iff]
    exact List.ne_nil_of_mem hgh
  have h1 : (retrofit_hydro_to_phs n b).1 =
      ((identify_hydro_generators n).foldl (rstep b)
        ⟨n, [], []⟩).net := by
    simp [retrofit_hydro_to_phs, hne]
  obtain ⟨l1, l2, hsplit⟩ := List.append_of_mem hgh
  have hsub2 : ∀ x ∈ l2, x ∈ n.generators := by
    intro x hx
    have hx2 : x ∈ identify_hydro_generators n := by
      rw [hsplit]
      simp [hx]
    exact (List.mem_filter.mp hx2).1
  have hfold : (identify_hydro_generators n).foldl (rstep b) ⟨n, [], []⟩ =
      l2.foldl (rstep b)
        (rstep b (l1.foldl (rstep b) ⟨n, [], []⟩) g) := by
    rw [hsplit, List.foldl_append, List.foldl_cons]
  refine ⟨?_, rfl, ?_, rfl, ?_, ?_⟩
  · rw [h1, hfold]
    exact foldl_storage_mono b l2 _ _
      (rstep_store_mem b (l1.foldl (rstep b) ⟨n, [], []⟩) g hple)
  · rw [h1, hfold]
    refine foldl_gen_pres b l2 _ _
      (rstep_turb_mem b (l1.foldl (rstep b) ⟨n, [], []⟩) g hple) ?_
    intro g2 hg2 _
    exact Ne.symm (hnc g2 (hsub2 g2 hg2))
  · intro hb
    subst hb
    rw [h1, hfold]
    exact foldl_gen_absent true l2 _ g
      (rstep_gen_removes (l1.foldl (rstep true) ⟨n, [], []⟩) g g rfl hple)
      hcar
  · intro hb
    subst hb
    rw [h1, hfold]
    have hstart : g ∈ (l1.foldl (rstep false)
        (⟨n, [], []⟩ : RState)).net.generators :=
      foldl_gen_pres false l1 _ g hg
        (fun g2 _ hF => absurd hF Bool.false_ne_true)
    refine foldl_gen_pres false l2 _ g ?_
      (fun g2 _ hF => absurd hF Bool.false_ne_true)
    exact rstep_gen_pres false _ g g hstart
      (fun hF => absurd hF Bool.false_ne_true)

/-- Concrete hydro generator for evaluating the retrofit. -/
def gC3 : RGenerator :=
  { name := "hy1", bus := "B1", p_nom := 100, carrier := "hydro",
    marginal_cost := 0, efficiency := 1, p_nom_extendable := false,
    capital_cost := 0 }

/-- Concrete one-generator network for evaluating the retrofit. -/
def nC3 : RNetwork :=
  { buses := ["B1"], generators := [gC3], storage_units := [], links := [],
    generators_t := ⟨none, none⟩, snapshots := ["t0"] }

/-- C3 witness: on a concrete network with one hydro generator of nominal
power 100, the retrofit with removal creates the reservoir with
`e_nom = 100 · 168` and drops the source generator. -/
theorem retrofit_hydro_to_phs_correct_witness :
    phs_store gC3 ∈ (retrofit_hydro_to_phs nC3 true).1.storage_units ∧
    (phs_store gC3).e_nom = gC3.p_nom * (24 * 7) ∧
    phs_turb gC3 ∈ (retrofit_hydro_to_phs nC3 true).1.generators ∧
    gC3 ∉ (retrofit_hydro_to_phs nC3 true).1.generators := by
  have h := retrofit_hydro_to_phs_correct nC3 gC3 true (by simp [nC3]) rfl
    (by norm_num [gC3])
    (by
      intro g2 hg2
      simp [nC3] at hg2
      subst hg2
      simp [gC3])
  exact ⟨h.1, h.2.1, h.2.2.1, h.2.2.2.2.1 rfl⟩

/-- The length of the `created` list after the loop counts exactly the
positive-capacity generators processed. -/
theorem foldl_created_length (b : Bool) (l : List RGenerator) (s : RState) :
    ((l.foldl (rstep b) s).created).length =
      s.created.length +
        (l.filter (fun g => !decide (g.p_nom ≤ 0))).length := by
  induction l generalizing s with
  | nil => simp
  | cons g t ih =>
      rw [List.foldl_cons, ih]
      by_cases h : g.p_nom ≤ 0
      · simp [rstep, h]
      · simp [rstep, h]
        omega

/-- C6: a hydro generator with non-positive nominal power is skipped: its
loop iteration only appends the diagnostic message, creating no component
and leaving the network untouched, and the loop goes on; a model with no
hydro generators is a no-op that reports nothing created; and the `created`
list counts exactly the hydro generators with positive nominal power, so
the remaining candidates are all still processed. -/
theorem retrofit_hydro_to_phs_edge_cases :
    (∀ (b : Bool) (s : RState) (g : RGenerator), g.p_nom ≤ 0 →
        rstep b s g = { s with msgs := s.msgs ++
          ["Generator " ++ g.name ++ " hat p_nom<=0, übersprungen."] }) ∧
    (∀ (n : RNetwork) (b : Bool), identify_hydro_generators n = [] →
        retrofit_hydro_to_phs n b =
          (n, none, ["Keine Hydro-Generatoren gefunden (Filter anpassen)."])) ∧
    (∀ (n : RNetwork) (b : Bool), identify_hydro_generators n ≠ [] →
        ∃ l, (retrofit_hydro_to_phs n b).2.1 = some l ∧
          l.length = ((identify_hydro_generators n).filter
            (fun g => !decide (g.p_nom ≤ 0))).length) := by
  refine ⟨?_, ?_, ?_⟩
  · intro b s g h
    simp [rstep, h]
  · intro n b h
    simp [retrofit_hydro_to_phs, h]
  · intro n b h
    have hne : (identify_hydro_generators n).isEmpty = false := by
      simp [List.isEmpty_iff, h]
    refine ⟨((identify_hydro_generators n).foldl (rstep b)
      ⟨n, [], []⟩).created, ?_, ?_⟩
    · simp [retrofit_hydro_to_phs, hne]
    · simpa using foldl_created_length b (identify_hydro_generators n)
        ⟨n, [], []⟩

/-- Concrete non-positive-capacity hydro generator. -/
def gC6neg : RGenerator :=
  { name := "g0", bus := "B1", p_nom := 0, carrier := "hydro",
    marginal_cost := 0, efficiency := 1, p_nom_extendable := false,
    capital_cost := 0 }

/-- Concrete wind generator (not a hydro candidate). -/
def gC6wind : RGenerator :=
  { name := "w1", bus := "B1", p_nom := 5, carrier := "wind",
    marginal_cost := 0, efficiency := 1, p_nom_extendable := false,
    capital_cost := 0 }

/-- Concrete hydro-free network (one wind generator only). -/
def nC6empty : RNetwork :=
  { buses := ["B1"], generators := [gC6wind], storage_units := [],
    links := [], generators_t := ⟨none, none⟩, snapshots := ["t0"] }

/-- Concrete positive-capacity hydro generator. -/
def gC6pos : RGenerator :=
  { name := "hy2", bus := "B1", p_nom := 3, carrier := "hydro",
    marginal_cost := 0, efficiency := 1, p_nom_extendable := false,
    capital_cost := 0 }

/-- Concrete network mixing a zero-capacity and a positive hydro generator. -/
def nC6mix : RNetwork :=
  { buses := ["B1"], generators := [gC6neg, gC6pos], storage_units := [],
    links := [], generators_t := ⟨none, none⟩, snapshots := ["t0"] }

/-- Concrete loop state for evaluating the skip branch. -/
def sC6 : RState := ⟨nC6empty, [], []⟩

/-- C6 witness: the three edge-case properties evaluated on concrete
inputs. -/
theorem retrofit_hydro_to_phs_edge_cases_witness :
    rstep true sC6 gC6neg = { sC6 with msgs := sC6.msgs ++
      ["Generator " ++ gC6neg.name ++ " hat p_nom<=0, übersprungen."] } ∧
    retrofit_hydro_to_phs nC6empty true =
      (nC6empty, none, ["Keine Hydro-Generatoren gefunden (Filter anpassen)."]) ∧
    (∃ l, (retrofit_hydro_to_phs nC6mix true).2.1 = some l ∧
      l.length = ((identify_hydro_generators nC6mix).filter
        (fun g => !decide (g.p_nom ≤ 0))).length) :=
  ⟨retrofit_hydro_to_phs_edge_cases.1 true sC6 gC6neg (by norm_num [gC6neg]),
   retrofit_hydro_to_phs_edge_cases.2.1 nC6empty true
     (by simp [identify_hydro_generators, nC6empty, gC6wind]),
   retrofit_hydro_to_phs_edge_cases.2.2 nC6mix true
     (by simp [identify_hydro_generators, nC6mix, gC6neg, gC6pos])⟩

/-- One loop iteration depends only on the component tables of the state,
never on the time-series tables read by the dead inflow computation. -/
theorem rstep_components_eq (b : Bool) (g : RGenerator) (s1 s2 : RState)
    (hg : s1.net.generators = s2.net.generators)
    (hs : s1.net.storage_units = s2.net.storage_units)
    (hl : s1.net.links = s2.net.links)
    (hc : s1.created = s2.created) (hm : s1.msgs = s2.msgs) :
    (rstep b s1 g).net.generators = (rstep b s2 g).net.generators ∧
    (rstep b s1 g).net.storage_units = (rstep b s2 g).net.storage_units ∧
    (rstep b s1 g).net.links = (rstep b s2 g).net.links ∧
    (rstep b s1 g).created = (rstep b s2 g).created ∧
    (rstep b s1 g).msgs = (rstep b s2 g).msgs := by
  by_cases h : g.p_nom ≤ 0 <;>
    simp [rstep, h, hg, hs, hl, hc, hm]

/-- The whole loop depends only on the component tables of the start
state. -/
theorem foldl_components_eq (b : Bool) (l : List RGenerator)
    (s1 s2 : RState)
    (hg : s1.net.generators = s2.net.generators)
    (hs : s1.net.storage_units = s2.net.storage_units)
    (hl : s1.net.links = s2.net.links)
    (hc : s1.created = s2.created) (hm : s1.msgs = s2.msgs) :
    (l.foldl (rstep b) s1).net.generators =
      (l.foldl (rstep b) s2).net.generators ∧
    (l.foldl (rstep b) s1).net.storage_units =
      (l.foldl (rstep b) s2).net.storage_units ∧
    (l.foldl (rstep b) s1).net.links = (l.foldl (rstep b) s2).net.links ∧
    (l.foldl (rstep b) s1).created = (l.foldl (rstep b) s2).created ∧
    (l.foldl (rstep b) s1).msgs = (l.foldl (rstep b) s2).msgs := by
  induction l generalizing s1 s2 with
  | nil => exact ⟨hg, hs, hl, hc, hm⟩
  | cons g t ih =>
      obtain ⟨h1, h2, h3, h4, h5⟩ := rstep_components_eq b g s1 s2 hg hs hl hc hm
      exact ih _ _ h1 h2 h3 h4 h5

/-- C10: two networks agreeing on the static generator table, the buses
and the snapshot index, but with arbitrary per-timestep tables, yield the
same retrofit result: the same `created` report and the same generator,
storage-unit and link tables — the inflow series computed by
`compute_inflow_timeseries` is never attached to anything. -/
theorem retrofit_ts_independent (n1 n2 : RNetwork) (b : Bool)
    (_hbus : n1.buses = n2.buses)
    (hg : n1.generators = n2.generators)
    (hsu : n1.storage_units = n2.storage_units)
    (hl : n1.links = n2.links)
    (_hsn : n1.snapshots = n2.snapshots) :
    (retrofit_hydro_to_phs n1 b).2 = (retrofit_hydro_to_phs n2 b).2 ∧
    (retrofit_hydro_to_phs n1 b).1.generators =
      (retrofit_hydro_to_phs n2 b).1.generators ∧
    (retrofit_hydro_to_phs n1 b).1.storage_units =
      (retrofit_hydro_to_phs n2 b).1.storage_units ∧
    (retrofit_hydro_to_phs n1 b).1.links =
      (retrofit_hydro_to_phs n2 b).1.links := by
  have hid : identify_hydro_generators n1 = identify_hydro_generators n2 := by
    simp [identify_hydro_generators, hg]
  by_cases hemp : (identify_hydro_generators n1).isEmpty = true
  · have hemp2 : (identify_hydro_generators n2).isEmpty = true := by
      rw [← hid]
      exact hemp
    refine ⟨?_, ?_, ?_, ?_⟩ <;>
      simp [retrofit_hydro_to_phs, hemp, hemp2, hg, hsu, hl]
  · have hemp1 : (identify_hydro_generators n1).isEmpty = false := by
      revert hemp
      cases (identify_hydro_generators n1).isEmpty <;> simp
    obtain ⟨h1, h2, h3, h4, h5⟩ := foldl_components_eq b
      (identify_hydro_generators n1) ⟨n1, [], []⟩ ⟨n2, [], []⟩ hg hsu hl
      rfl rfl
    refine ⟨?_, ?_, ?_, ?_⟩ <;>
      simp [retrofit_hydro_to_phs, ← hid, hemp1, h1, h2, h3, h4, h5]

/-- Concrete hydro generator shared by the two C10 networks. -/
def gC10 : RGenerator :=
  { name := "hy1", bus := "B1", p_nom := 4, carrier := "hydro",
    marginal_cost := 0, efficiency := 1, p_nom_extendable := false,
    capital_cost := 0 }

/-- Concrete network with an availability time series. -/
def nC10a : RNetwork :=
  { buses := ["B1"], generators := [gC10], storage_units := [],
    links := [], generators_t := ⟨some [("hy1", [1, 2])], none⟩,
    snapshots := ["t0", "t1"] }

/-- The same network with a different, dispatch-only time-series table. -/
def nC10b : RNetwork :=
  { buses := ["B1"], generators := [gC10], storage_units := [],
    links := [], generators_t := ⟨none, some [("hy1", [7, 9])]⟩,
    snapshots := ["t0", "t1"] }

/-- C10 witness: the two concrete networks differing only in their
time-series tables retrofit identically. -/
theorem retrofit_ts_independent_witness :
    (retrofit_hydro_to_phs nC10a true).2 =
      (retrofit_hydro_to_phs nC10b true).2 ∧
    (retrofit_hydro_to_phs nC10a true).1.generators =
      (retrofit_hydro_to_phs nC10b true).1.generators ∧
    (retrofit_hydro_to_phs nC10a true).1.storage_units =
      (retrofit_hydro_to_phs nC10b true).1.storage_units ∧
    (retrofit_hydro_to_phs nC10a true).1.links =
      (retrofit_hydro_to_phs nC10b true).1.links :=
  retrofit_ts_independent nC10a nC10b true rfl rfl rfl rfl rfl

/-! ## Lemmas about the extended arithmetic -/

/-- Addition of finite values. -/
theorem padd_val (a b : ℚ) : padd (.val a) (.val b) = .val (a + b) := rfl

/-- Multiplication of finite values. -/
theorem pmul_val (a b : ℚ) : pmul (.val a) (.val b) = .val (a * b) := rfl

/-- Division of finite values with nonzero divisor. -/
theorem pdiv_val_of_ne (a b : ℚ) (hb : b ≠ 0) :
    pdiv (.val a) (.val b) = .val (a / b) := by
  simp [pdiv, hb]

/-- A positive finite value divided by zero is `+inf` (the pandas behaviour
on `target / 0`). -/
theorem pdiv_val_of_pos_zero (a b : ℚ) (hb : b = 0) (ha : 0 < a) :
    pdiv (.val a) (.val b) = .inf := by
  simp [pdiv, hb, ha]

/-- A positive finite value times `+inf` is `+inf`. -/
theorem pmul_val_inf_pos (a : ℚ) (ha : 0 < a) :
    pmul (.val a) .inf = .inf := by
  simp [pmul, ha]

/-- A negative finite value times `+inf` is `-inf`. -/
theorem pmul_val_inf_neg (a : ℚ) (ha : a < 0) :
    pmul (.val a) .inf = .ninf := by
  have h1 : ¬ 0 < a := not_lt.mpr ha.le
  simp [pmul, h1, ha]

/-- Concrete load of a zero-aggregated-demand country: the two series
entries cancel to an aggregated demand of zero. -/
def LC1 : Load := ⟨"L1", "AT0 0", [.val 5, .val (-5)]⟩

/-- Concrete network whose only country has zero aggregated demand but a
nonzero target. -/
def mC1 : Network :=
  { buses := ["AT0 0"], loads := [LC1], storage_units := [], links := [],
    global_constraints := [] }

/-- C1 evaluation: on a country with zero aggregated current demand and a
nonzero target, `rescale_loads` does NOT skip the country: the surviving
scaling factor is `target / 0 = +inf` (`dropna` removes only `NaN`), the
country's load series is modified, and the non-finite values `+inf` and
`-inf` are written into the load time-series table. -/
theorem rescale_loads_zero_demand_bug :
    country_sum_mwh mC1.loads "AT0 0" = PFloat.val 0 ∧
    scalingFactor mC1.loads "AT0 0" = some PFloat.inf ∧
    (rescale_loads mC1).loads = [⟨"L1", "AT0 0", [PFloat.inf, PFloat.ninf]⟩] := by
  have hsum : country_sum_mwh mC1.loads "AT0 0" =
      PFloat.val (0 + (0 + 5 + -5)) := rfl
  have h0 : (0 + (0 + 5 + -5) : ℚ) = 0 := by norm_num
  have htt : target_twh "AT0 0" = some (11975/1000 * gtoe_to_twh) := rfl
  have hcp : countryPresent mC1.loads "AT0 0" = true := rfl
  have hlst : load_sums_twh mC1.loads "AT0 0" = PFloat.val 0 := by
    have h1 : pdiv (PFloat.val 0) (PFloat.val 1000000) =
        PFloat.val (0 / 1000000) := pdiv_val_of_ne 0 1000000 (by norm_num)
    simp [load_sums_twh, hsum, h0, h1]
  have hdiv : pdiv (PFloat.val (11975/1000 * gtoe_to_twh)) (PFloat.val 0) =
      PFloat.inf :=
    pdiv_val_of_pos_zero _ _ rfl (by norm_num [gtoe_to_twh])
  have hsf : scalingFactor mC1.loads "AT0 0" = some PFloat.inf := by
    simp [scalingFactor, htt, hcp, hlst, hdiv]
  have hlc : loadCountry LC1 = "AT0 0" := rfl
  have hm1 : pmul (.val 5) .inf = .inf := pmul_val_inf_pos 5 (by norm_num)
  have hm2 : pmul (.val (-5)) .inf = .ninf := pmul_val_inf_neg (-5) (by norm_num)
  refine ⟨by rw [hsum, h0], hsf, ?_⟩
  have hmap : (rescale_loads mC1).loads = [rescaleLoad mC1.loads LC1] := rfl
  have hset : LC1.p_set.map (fun x => pmul x PFloat.inf) =
      [PFloat.inf, PFloat.ninf] := by
    show [pmul (.val 5) .inf, pmul (.val (-5)) .inf] = _
    rw [hm1, hm2]
  have hone : rescaleLoad mC1.loads LC1 =
      (⟨"L1", "AT0 0", [PFloat.inf, PFloat.ninf]⟩ : Load) := by
    rw [rescaleLoad, hlc, hsf]
    show { LC1 with p_set := LC1.p_set.map (fun x => pmul x PFloat.inf) } = _
    rw [hset]
    rfl
  rw [hmap, hone]

/-! ## Lemmas for the rescaling round trip -/

/-- The exact rational sum of a list of extended values (meaningful on
all-finite lists). -/
def sumRat (xs : List PFloat) : ℚ := (xs.map PFloat.toRat).sum

/-- Folding `padd` over an all-finite list is exact rational summation. -/
theorem foldl_padd_finite (xs : List PFloat) (q : ℚ)
    (h : ∀ x ∈ xs, x.isFinite = true) :
    xs.foldl padd (.val q) = .val (q + sumRat xs) := by
  induction xs generalizing q with
  | nil => simp [sumRat]
  | cons x t ih =>
      obtain ⟨a, rfl⟩ : ∃ a, x = PFloat.val a := by
        cases x with
        | val a => exact ⟨a, rfl⟩
        | inf =>
            exact absurd (h PFloat.inf (List.mem_cons_self _ _))
              (by simp [PFloat.isFinite])
        | ninf =>
            exact absurd (h PFloat.ninf (List.mem_cons_self _ _))
              (by simp [PFloat.isFinite])
        | nan =>
            exact absurd (h PFloat.nan (List.mem_cons_self _ _))
              (by simp [PFloat.isFinite])
      rw [List.foldl_cons, padd_val, ih (q + a) (fun y hy => h y (by simp [hy]))]
      congr 1
      simp [sumRat, PFloat.toRat]
      ring

/-- The pandas sum of an all-finite series is its exact rational sum. -/
theorem psum_finite (xs : List PFloat) (h : ∀ x ∈ xs, x.isFinite = true) :
    psum xs = .val (sumRat xs) := by
  have h2 := foldl_padd_finite xs 0 h
  rw [psum, h2, zero_add]

/-- The pandas sum of a list of finite values given by a function. -/
theorem psum_map_val {α : Type} (g : α → ℚ) (l : List α) :
    psum (l.map (fun a => PFloat.val (g a))) = .val ((l.map g).sum) := by
  rw [psum_finite]
  · congr 1
    simp only [sumRat, List.map_map]
    rfl
  · intro x hx
    simp only [List.mem_map] at hx
    obtain ⟨a, _, rfl⟩ := hx
    rfl

/-- Multiplying an all-finite series elementwise by a finite factor scales
its pandas sum exactly. -/
theorem psum_map_pmul_val (f : ℚ) (xs : List PFloat)
    (h : ∀ x ∈ xs, x.isFinite = true) :
    psum (xs.map (fun x => pmul x (.val f))) = .val (sumRat xs * f) := by
  have hmap : xs.map (fun x => pmul x (.val f)) =
      xs.map (fun x => PFloat.val (x.toRat * f)) := by
    refine List.map_congr_left (fun x hx => ?_)
    have hx2 := h x hx
    cases x with
    | val a => rfl
    | inf => simp [PFloat.isFinite] at hx2
    | ninf => simp [PFloat.isFinite] at hx2
    | nan => simp [PFloat.isFinite] at hx2
  rw [hmap, psum_map_val (fun x => x.toRat * f) xs]
  congr 1
  rw [List.sum_map_mul_right]
  rfl

/-- C2: for every country in both the target mapping and the model with
nonzero aggregated current demand `q` (MWh), the aggregated demand in TWh
after `rescale_loads` equals the target `t` (Gtoe value × 11.630) exactly;
and every load whose country is absent from the target mapping is
bit-identical to its input. -/
theorem rescale_loads_round_trip (m : Network)
    (hfin : ∀ l ∈ m.loads, ∀ x ∈ l.p_set, x.isFinite = true) :
    (∀ (c : String) (t q : ℚ), target_twh c = some t →
        country_sum_mwh m.loads c = PFloat.val q → q ≠ 0 →
        load_sums_twh (rescale_loads m).loads c = PFloat.val t) ∧
    List.Forall₂ (fun l l2 => target_twh (loadCountry l) = none → l2 = l)
      m.loads (rescale_loads m).loads := by
  constructor
  · intro c t q htt hcs hqne
    have hfinS : ∀ l ∈ m.loads.filter (fun l => loadCountry l == c),
        ∀ x ∈ l.p_set, x.isFinite = true :=
      fun l hl => hfin l (List.mem_of_mem_filter hl)
    have hcur : country_sum_mwh m.loads c =
        PFloat.val (((m.loads.filter (fun l => loadCountry l == c)).map
          (fun l => sumRat l.p_set)).sum) := by
      rw [country_sum_mwh]
      have hm : (m.loads.filter (fun l => loadCountry l == c)).map
            (fun l => psum l.p_set) =
          (m.loads.filter (fun l => loadCountry l == c)).map
            (fun l => PFloat.val (sumRat l.p_set)) := by
        refine List.map_congr_left (fun l hl => ?_)
        exact psum_finite l.p_set (hfinS l hl)
      rw [hm]
      exact psum_map_val (fun (l : Load) => sumRat l.p_set) _
    have hqe : q = ((m.loads.filter (fun l => loadCountry l == c)).map
        (fun l => sumRat l.p_set)).sum := by
      have h2 := hcs.symm.trans hcur
      injection h2
    have hSne : m.loads.filter (fun l => loadCountry l == c) ≠ [] := by
      intro hnil
      apply hqne
      rw [hqe, hnil]
      simp
    have hcp : countryPresent m.loads c = true := by
      obtain ⟨l, hl⟩ := List.exists_mem_of_ne_nil _ hSne
      have hl2 := List.mem_filter.mp hl
      exact List.any_eq_true.mpr ⟨l, hl2.1, hl2.2⟩
    have hlst : load_sums_twh m.loads c = PFloat.val (q / 1000000) := by
      rw [load_sums_twh, hcs]
      exact pdiv_val_of_ne q 1000000 (by norm_num)
    have hq6 : q / 1000000 ≠ 0 := div_ne_zero hqne (by norm_num)
    have hsf : scalingFactor m.loads c = some (.val (t / (q / 1000000))) := by
      have hfd : pdiv (.val t) (load_sums_twh m.loads c) =
          .val (t / (q / 1000000)) := by
        rw [hlst]
        exact pdiv_val_of_ne t _ hq6
      simp [scalingFactor, htt, hcp, hfd]
    have hresc : ∀ l ∈ m.loads.filter (fun l => loadCountry l == c),
        rescaleLoad m.loads l =
          { l with
            p_set := l.p_set.map (fun x => pmul x (.val (t / (q / 1000000)))) } := by
      intro l hl
      have hc2 : loadCountry l = c := by
        have h3 := (List.mem_filter.mp hl).2
        simpa using h3
      rw [rescaleLoad, hc2, hsf]
    have hFc : ∀ l, loadCountry (rescaleLoad m.loads l) = loadCountry l := by
      intro l
      rw [rescaleLoad]
      cases hsc : scalingFactor m.loads (loadCountry l) with
      | none => rfl
      | some f => rfl
    have hfilter : (m.loads.map (rescaleLoad m.loads)).filter
          (fun l => loadCountry l == c) =
        (m.loads.filter (fun l => loadCountry l == c)).map
          (rescaleLoad m.loads) := by
      rw [List.filter_map]
      congr 1
      refine List.filter_congr (fun l _ => ?_)
      simp [Function.comp, hFc l]
    have hsum2 : ∀ l ∈ m.loads.filter (fun l => loadCountry l == c),
        psum ((rescaleLoad m.loads l).p_set) =
          PFloat.val (sumRat l.p_set * (t / (q / 1000000))) := by
      intro l hl
      rw [hresc l hl]
      exact psum_map_pmul_val _ _ (hfinS l hl)
    have hout : country_sum_mwh (rescale_loads m).loads c =
        PFloat.val (q * (t / (q / 1000000))) := by
      rw [country_sum_mwh]
      have h1 : (rescale_loads m).loads = m.loads.map (rescaleLoad m.loads) := rfl
      rw [h1, hfilter, List.map_map]
      have hm2 : (m.loads.filter (fun l => loadCountry l == c)).map
            ((fun l => psum l.p_set) ∘ rescaleLoad m.loads) =
          (m.loads.filter (fun l => loadCountry l == c)).map
            (fun l => PFloat.val (sumRat l.p_set * (t / (q / 1000000)))) := by
        refine List.map_congr_left (fun l hl => ?_)
        exact hsum2 l hl
      rw [hm2, psum_map_val]
      congr 1
      rw [List.sum_map_mul_right, ← hqe]
    rw [load_sums_twh, hout, pdiv_val_of_ne _ 1000000 (by norm_num)]
    congr 1
    field_simp
  · have h1 : (rescale_loads m).loads = m.loads.map (rescaleLoad m.loads) := rfl
    rw [h1]
    refine forall2_map_self _ _ _ (fun l _ => ?_)
    intro htgt
    have hnone : scalingFactor m.loads (loadCountry l) = none := by
      simp [scalingFactor, htgt]
    rw [rescaleLoad, hnone]

/-- Concrete one-load network with nonzero demand in a target country. -/
def mC2 : Network :=
  { buses := ["AT0 0"], loads := [⟨"L1", "AT0 0", [.val 2]⟩],
    storage_units := [], links := [], global_constraints := [] }

/-- C2 witness: on the concrete network, the rescaled aggregated demand of
`"AT0 0"` in TWh equals the target `11.975 · 11.630` exactly. -/
theorem rescale_loads_round_trip_witness :
    load_sums_twh (rescale_loads mC2).loads "AT0 0" =
      PFloat.val (11975/1000 * gtoe_to_twh) :=
  (rescale_loads_round_trip mC2
      (by intro l hl x hx; simp [mC2] at hl; subst hl; simp at hx; subst hx; rfl)).1
    "AT0 0" (11975/1000 * gtoe_to_twh) (0 + (0 + 2)) rfl rfl (by norm_num)
